import Mathlib

/-!
Verification of the spaced-retrieval core of the lovedones repository:
the tabular Q-learning scheduler (cognitive_backend/src/qlearning_scheduler.py),
the ridge-regression speech load model (cognitive_backend/src/speech_model.py),
and the parallel implementation in whoami_general/src (model_speech_numpy.py,
utils.py).  All numeric values are embedded as rationals, Python dicts as
total functions with Option/default semantics, and the numpy RNG draws as
explicit parameters.
-/

/-- Model of a dynamically typed Python value, as far as the scheduler needs:
the item state tuples hold ints, while the safety checks compare against
string literals.  Python equality between values of different runtime types
is False. -/
inductive PyVal where
  | int (n : ℤ)
  | str (s : String)
deriving DecidableEq, Repr

/-- Python == on dynamically typed values: structural equality within a type,
False across types (an int never equals a str). -/
def pyEq : PyVal → PyVal → Bool
  | PyVal.int a, PyVal.int b => a = b
  | PyVal.str a, PyVal.str b => a = b
  | _, _ => false

/-- Python `x in list`: membership via pyEq. -/
def pyIn (v : PyVal) (l : List PyVal) : Bool :=
  l.any (pyEq v)

/-- Python list indexing `l[i]` for an integer index: in-range indices are
looked up directly, negative indices wrap from the end, anything else is an
IndexError (modelled as none). -/
def pyListGet {α : Type} (l : List α) (i : ℤ) : Option α :=
  if 0 ≤ i ∧ i < (l.length : ℤ) then l.get? i.toNat
  else if -(l.length : ℤ) ≤ i ∧ i < 0 then l.get? ((l.length : ℤ) + i).toNat
  else none

/-- Model of np.argmax over the 4-entry Q-table row `f 0, f 1, f 2, f 3`:
index of the first occurrence of the maximum value. -/
def npArgmax4 (f : ℤ → ℚ) : ℤ :=
  (([1, 2, 3] : List ℤ).foldl
    (fun b i => if f i > b.2 then (i, f i) else b) ((0 : ℤ), f 0)).1

/-- Model of np.max over the 4-entry Q-table row. -/
def npMax4 (f : ℤ → ℚ) : ℚ :=
  max (max (max (f 0) (f 1)) (f 2)) (f 3)

/-- Model of np.clip x lo hi. -/
def npClip (x lo hi : ℚ) : ℚ :=
  max lo (min x hi)

/-- Per-item state tuple (difficulty, success_streak, latency_bin, load_band)
stored in QLearningScheduler.item_states; the last component is the integer
load-band index produced by get_load_band_index. -/
structure ItemState where
  difficulty : ℤ
  success_streak : ℤ
  latency_bin : ℤ
  load_band : ℤ
deriving DecidableEq, Repr

/-- A session record appended by record_result. -/
structure SessionRec where
  correct : Bool
  latency_sec : ℚ
  reward : ℚ
  old_state : ItemState
  new_state : ItemState
deriving DecidableEq, Repr

/-- The QLearningScheduler object: hyperparameters, dense Q-table (embedded as
a total function from (state index, action index) keys, zero outside the
written entries, matching the all-zeros numpy initialisation), and the two
per-item dicts. -/
structure QLearningScheduler where
  learning_rate : ℚ
  discount_factor : ℚ
  epsilon : ℚ
  max_streak : ℤ
  max_latency_bin : ℤ
  max_load_bin : ℤ
  q_table : ((ℤ × ℤ × ℤ × ℤ) × ℤ) → ℚ
  item_states : ℤ → Option ItemState
  item_sessions : ℤ → List SessionRec

/-- QLearningScheduler.__init__: zero Q-table, empty item dicts. -/
def QLearningScheduler.init (learning_rate discount_factor epsilon : ℚ)
    (max_streak max_latency_bin max_load_bin : ℤ) : QLearningScheduler :=
  { learning_rate := learning_rate
    discount_factor := discount_factor
    epsilon := epsilon
    max_streak := max_streak
    max_latency_bin := max_latency_bin
    max_load_bin := max_load_bin
    q_table := fun _ => 0
    item_states := fun _ => none
    item_sessions := fun _ => [] }

/-- The fixed action list [30, 60, 120, 240] of intervals in seconds. -/
def qlActions : List ℤ := [30, 60, 120, 240]

/-- get_state_index: clamp the state components into Q-table ranges. -/
def get_state_index (sch : QLearningScheduler) (s : ItemState) : ℤ × ℤ × ℤ × ℤ :=
  (min (s.difficulty - 1) 2,
   min s.success_streak sch.max_streak,
   min s.latency_bin sch.max_latency_bin,
   min (s.load_band - 1) sch.max_load_bin)

/-- get_latency_bin: latency thresholds 2.0 and 5.0 seconds. -/
def get_latency_bin (latency_sec : ℚ) : ℤ :=
  if latency_sec ≤ 2 then 0
  else if latency_sec ≤ 5 then 1
  else 2

/-- get_load_band_index: band_map.get(load_band, 2) with
band_map = low ↦ 1, moderate ↦ 2, high ↦ 3. -/
def get_load_band_index (load_band : String) : ℤ :=
  if load_band = "low" then 1
  else if load_band = "moderate" then 2
  else if load_band = "high" then 3
  else 2

/-- One draw of the numpy RNG as used by choose_action: the uniform float
compared against epsilon, and the uniform action index from
np.random.randint(0, 4). -/
structure Draw where
  u : ℚ
  r : Fin 4
deriving DecidableEq, Repr

/-- choose_action: epsilon-greedy over the Q-table row, then the two safety
clamps.  The state's load_band slot is an int, so the Python comparisons
against the strings 'high' / 'low' / 'moderate' go through pyEq on mixed
types. -/
def choose_action (sch : QLearningScheduler) (s : ItemState)
    (force_exploit : Bool) (dr : Draw) : ℤ :=
  let state_idx := get_state_index sch s
  let a0 : ℤ :=
    if force_exploit = false ∧ dr.u < sch.epsilon then (dr.r : ℤ)
    else npArgmax4 (fun a => sch.q_table (state_idx, a))
  let a1 : ℤ :=
    if s.difficulty ≥ 3 ∨ pyEq (PyVal.int s.load_band) (PyVal.str "high") = true
    then min a0 2 else a0
  let a2 : ℤ :=
    if s.difficulty = 1 ∧ s.success_streak ≥ 2 ∧
        pyIn (PyVal.int s.load_band) [PyVal.str "low", PyVal.str "moderate"] = true
    then max a1 1 else a1
  a2

/-- calculate_reward: base 1.0 with mutually exclusive speed bonuses and the
difficulty/load bonuses on correct, base -0.5 with the easy-item penalty on
incorrect. -/
def calculate_reward (correct : Bool) (latency_sec : ℚ)
    (difficulty : ℤ) (load_band : String) : ℚ :=
  if correct then
    1 + (if latency_sec ≤ 2 then (1 / 2 : ℚ)
         else if latency_sec ≤ 5 then 3 / 10
         else if latency_sec ≤ 10 then 1 / 10
         else 0)
      + (if difficulty ≥ 3 then (1 / 5 : ℚ) else 0)
      + (if load_band = "high" then (1 / 5 : ℚ) else 0)
  else
    -(1 / 2) + (if difficulty = 1 then (-(3 / 10) : ℚ) else 0)

/-- update_q_value: the one-step tabular Q-learning update, writing exactly
the (state index, action) entry; max over the next state's row is read from
the table before the write. -/
def update_q_value (sch : QLearningScheduler) (s : ItemState) (action : ℤ)
    (reward : ℚ) (next_state : ItemState) : QLearningScheduler :=
  let state_idx := get_state_index sch s
  let next_state_idx := get_state_index sch next_state
  let current_q := sch.q_table (state_idx, action)
  let max_next_q := npMax4 (fun a => sch.q_table (next_state_idx, a))
  let new_q := current_q +
    sch.learning_rate * (reward + sch.discount_factor * max_next_q - current_q)
  { sch with q_table := fun k => if k = (state_idx, action) then new_q else sch.q_table k }

/-- get_next_interval: lazily create the item state, choose an action, and
return the interval via Python list indexing into the action list. -/
def get_next_interval (sch : QLearningScheduler) (item_id difficulty : ℤ)
    (load_band : String) (force_exploit : Bool) (dr : Draw) :
    Option ℤ × QLearningScheduler :=
  match sch.item_states item_id with
  | none =>
    let state : ItemState := ⟨difficulty, 0, 1, get_load_band_index load_band⟩
    let sch1 := { sch with
      item_states := fun i => if i = item_id then some state else sch.item_states i
      item_sessions := fun i => if i = item_id then [] else sch.item_sessions i }
    let action := choose_action sch1 state force_exploit dr
    (pyListGet qlActions action, sch1)
  | some state =>
    let action := choose_action sch state force_exploit dr
    (pyListGet qlActions action, sch)

/-- record_result: no-op on unknown items; otherwise the tuple unpacking of
the stored state shadows the difficulty argument, the reward and next state
are computed, the Q-value update is applied at the hardcoded action index 0,
and the state and session log are updated. -/
def record_result (sch : QLearningScheduler) (item_id : ℤ) (correct : Bool)
    (latency_sec : ℚ) (difficulty : ℤ) (load_band : String) : QLearningScheduler :=
  match sch.item_states item_id with
  | none => sch
  | some current_state =>
    let difficulty := current_state.difficulty
    let reward := calculate_reward correct latency_sec difficulty load_band
    let new_streak := if correct then min (current_state.success_streak + 1) sch.max_streak else 0
    let new_latency_bin := get_latency_bin latency_sec
    let new_state : ItemState :=
      ⟨difficulty, new_streak, new_latency_bin, get_load_band_index load_band⟩
    let sch1 := update_q_value sch current_state 0 reward new_state
    { sch1 with
      item_states := fun i => if i = item_id then some new_state else sch1.item_states i
      item_sessions := fun i =>
        if i = item_id then
          sch1.item_sessions i ++ [⟨correct, latency_sec, reward, current_state, new_state⟩]
        else sch1.item_sessions i }

/-- One external operation on the scheduler: a get_next_interval call (with
its RNG draw made explicit) or a record_result call. -/
inductive SchedOp where
  | next (item_id difficulty : ℤ) (load_band : String) (force_exploit : Bool) (dr : Draw)
  | record (item_id : ℤ) (correct : Bool) (latency_sec : ℚ) (difficulty : ℤ) (load_band : String)

/-- Apply one operation to the scheduler, discarding the returned interval. -/
def SchedOp.apply (sch : QLearningScheduler) : SchedOp → QLearningScheduler
  | SchedOp.next item_id difficulty load_band force_exploit dr =>
      (get_next_interval sch item_id difficulty load_band force_exploit dr).2
  | SchedOp.record item_id correct latency_sec difficulty load_band =>
      record_result sch item_id correct latency_sec difficulty load_band

/-- Run a finite sequence of scheduler operations. -/
def runSchedOps (sch : QLearningScheduler) (ops : List SchedOp) : QLearningScheduler :=
  ops.foldl SchedOp.apply sch

/-- Feature vector assembled by SpeechBiomarkerModel.predict_load_band: bias 1
followed by the five named features, each read with features.get(name, 0), so
a missing feature contributes the default 0. -/
def featureVector (features : String → Option ℚ) : Fin 6 → ℚ :=
  ![1,
    (features "wpm").getD 0,
    (features "pause_rate").getD 0,
    (features "ttr").getD 0,
    (features "jitter").getD 0,
    (features "articulation_rate").getD 0]

/-- Raw predicted load: the dot product feature_vector @ coefficients. -/
def rawPredictedLoad (coefficients : Fin 6 → ℚ) (features : String → Option ℚ) : ℚ :=
  ∑ i, featureVector features i * coefficients i

/-- SpeechBiomarkerModel.predict_load_band: errors when the model is unfit
(coefficients is None), otherwise maps the raw dot product to a band with the
thresholds 1.5 and 2.5, both compared with ≤. -/
def predict_load_band (coefficients : Option (Fin 6 → ℚ))
    (features : String → Option ℚ) : Except String String :=
  match coefficients with
  | none => Except.error "Model must be trained before making predictions"
  | some c =>
    let predicted_load := rawPredictedLoad c features
    Except.ok
      (if predicted_load ≤ 3 / 2 then "low"
       else if predicted_load ≤ 5 / 2 then "moderate"
       else "high")

/-- band_from_score from whoami_general/src/utils.py: strict thresholds 1.5
and 3.0. -/
def band_from_score (x : ℚ) : String :=
  if x < 3 / 2 then "low"
  else if x < 3 then "moderate"
  else "high"

/-- Band map exactly as the claim words it (spec section 4.1): inclusive-low
thresholds on the predicted score, 1.5 and 2.5.  Stated for comparison with
the two implementations. -/
def specBandInclusive (y : ℚ) : String :=
  if y ≤ 3 / 2 then "low"
  else if y ≤ 5 / 2 then "moderate"
  else "high"

/-- Design matrix with a prepended bias column of ones, as built by
prepare_features (speech_model.py) and fit (model_speech_numpy.py). -/
def designMatrix {m : ℕ} (F : Matrix (Fin m) (Fin 5) ℚ) : Matrix (Fin m) (Fin 6) ℚ :=
  Matrix.of fun i j => Fin.cases 1 (fun k => F i k) j

/-- Model of np.linalg.inv over exact rationals: fails (LinAlgError) on a
singular matrix, otherwise returns the inverse det⁻¹ • adjugate. -/
def npLinalgInv {n : ℕ} (A : Matrix (Fin n) (Fin n) ℚ) :
    Option (Matrix (Fin n) (Fin n) ℚ) :=
  if A.det = 0 then none else some (A.det⁻¹ • A.adjugate)

/-- SpeechBiomarkerModel.train coefficient computation: the single closed-form
solve (Xᵀ X + λ I)⁻¹ Xᵀ y with the FULL identity as regularizer
(lambda_reg * np.eye), bias row included. -/
def trainCoefficients {m : ℕ} (F : Matrix (Fin m) (Fin 5) ℚ) (y : Fin m → ℚ)
    (lambda_reg : ℚ) : Option (Fin 6 → ℚ) :=
  let X := designMatrix F
  (npLinalgInv (X.transpose * X + lambda_reg • (1 : Matrix (Fin 6) (Fin 6) ℚ))).map
    (fun Ainv => Ainv.mulVec (X.transpose.mulVec y))

/-- The regularizer of SpeechLoadModel.fit (model_speech_numpy.py): np.eye
with the (0,0) entry zeroed, leaving the intercept unregularized. -/
def zeroCornerEye : Matrix (Fin 6) (Fin 6) ℚ :=
  Matrix.of fun i j => if i = j ∧ i ≠ 0 then 1 else 0

/-- SpeechLoadModel.fit coefficient computation: the closed-form solve
(Xᵀ X + λ R)⁻¹ Xᵀ y with R the identity whose (0,0) entry is zeroed. -/
def fitCoefficients {m : ℕ} (F : Matrix (Fin m) (Fin 5) ℚ) (y : Fin m → ℚ)
    (lam : ℚ) : Option (Fin 6 → ℚ) :=
  let X := designMatrix F
  (npLinalgInv (X.transpose * X + lam • zeroCornerEye)).map
    (fun Ainv => Ainv.mulVec (X.transpose.mulVec y))

/-- Ridge solve exactly as the claim words it: β = (Xᵀ X + λ R)⁻¹ Xᵀ y with X
the design matrix with a prepended bias column of ones and R the identity
matrix whose (0,0) entry is zeroed.  Stated for comparison with the two
implementations. -/
def specRidgeCoefficients {m : ℕ} (F : Matrix (Fin m) (Fin 5) ℚ) (y : Fin m → ℚ)
    (lam : ℚ) : Option (Fin 6 → ℚ) :=
  let X := designMatrix F
  (npLinalgInv (X.transpose * X + lam • zeroCornerEye)).map
    (fun Ainv => Ainv.mulVec (X.transpose.mulVec y))

/-- A scheduler with the reference hyperparameters (the __init__ defaults)
and no items yet. -/
def schDefault : QLearningScheduler :=
  QLearningScheduler.init (1/10) (9/10) (1/10) 3 2 2

/-- A scheduler with the reference hyperparameters in which item 1 is known,
with stored state (difficulty 2, streak 1, latency bin 1, load index 2). -/
def schKnown : QLearningScheduler :=
  { schDefault with item_states := fun i => if i = 1 then some ⟨2, 1, 1, 2⟩ else none }

/-- The next state constructed by record_result for a known item: the stored
difficulty, the streak incremented and capped or reset, the fresh latency
bin, and the load-band index of the load_band argument. -/
def next_state_of (sch : QLearningScheduler) (st : ItemState) (correct : Bool)
    (latency_sec : ℚ) (load_band : String) : ItemState :=
  ⟨st.difficulty,
   if correct then min (st.success_streak + 1) sch.max_streak else 0,
   get_latency_bin latency_sec,
   get_load_band_index load_band⟩

/-- Characterisation of record_result on a known item: the Q-table gets the
single update at (stored state index, action 0), the item state is replaced
by the next state, and the session record is appended. -/
theorem record_result_known (sch : QLearningScheduler) (item_id : ℤ)
    (correct : Bool) (latency_sec : ℚ) (difficulty : ℤ) (load_band : String)
    (st : ItemState) (h : sch.item_states item_id = some st) :
    record_result sch item_id correct latency_sec difficulty load_band =
      { sch with
        q_table := fun k =>
          if k = (get_state_index sch st, 0) then
            sch.q_table (get_state_index sch st, 0) +
              sch.learning_rate *
                (calculate_reward correct latency_sec st.difficulty load_band +
                  sch.discount_factor *
                    npMax4 (fun a => sch.q_table
                      (get_state_index sch (next_state_of sch st correct latency_sec load_band), a)) -
                  sch.q_table (get_state_index sch st, 0))
          else sch.q_table k
        item_states := fun i =>
          if i = item_id then some (next_state_of sch st correct latency_sec load_band)
          else sch.item_states i
        item_sessions := fun i =>
          if i = item_id then
            sch.item_sessions i ++
              [⟨correct, latency_sec,
                calculate_reward correct latency_sec st.difficulty load_band,
                st, next_state_of sch st correct latency_sec load_band⟩]
          else sch.item_sessions i } := by
  unfold record_result
  rw [h]
  rfl

/-- C3: For every record_result call on a known item, the Q-table entry
updated is the one at action index 0 (a hardcoded placeholder), regardless of
which action was actually chosen by the preceding get_next_interval call for
that item: any key whose entry changes has action component 0. -/
theorem C3_update_uses_action_zero (sch : QLearningScheduler) (item_id : ℤ)
    (correct : Bool) (latency_sec : ℚ) (difficulty : ℤ) (load_band : String)
    (st : ItemState) (h : sch.item_states item_id = some st) :
    ∀ k, (record_result sch item_id correct latency_sec difficulty load_band).q_table k ≠
        sch.q_table k →
      k = (get_state_index sch st, 0) ∧ k.2 = 0 := by
  intro k hk
  rw [record_result_known sch item_id correct latency_sec difficulty load_band st h] at hk
  by_cases hkk : k = (get_state_index sch st, 0)
  · exact ⟨hkk, by rw [hkk]⟩
  · exact absurd (by simp [hkk]) hk

/-- Witness for C3 at a concrete scheduler, item and call. -/
theorem C3_update_uses_action_zero_witness :
    schKnown.item_states 1 = some ⟨2, 1, 1, 2⟩ ∧
    ∀ k, (record_result schKnown 1 true 1 2 "low").q_table k ≠ schKnown.q_table k →
      k = (get_state_index schKnown ⟨2, 1, 1, 2⟩, 0) ∧ k.2 = 0 :=
  ⟨rfl, C3_update_uses_action_zero schKnown 1 true 1 2 "low" ⟨2, 1, 1, 2⟩ rfl⟩

/-- C6: Each record_result on a known item applies the one-step tabular
Q-learning update exactly once: the entry at (stored state index, taken
action) becomes Q + α·(r + γ·max over the next state's row − Q), with r the
computed reward and the next state as constructed, and every other Q-table
entry is left unchanged. -/
theorem C6_q_update_once (sch : QLearningScheduler) (item_id : ℤ)
    (correct : Bool) (latency_sec : ℚ) (difficulty : ℤ) (load_band : String)
    (st : ItemState) (h : sch.item_states item_id = some st) :
    (record_result sch item_id correct latency_sec difficulty load_band).q_table =
      fun k =>
        if k = (get_state_index sch st, 0) then
          sch.q_table (get_state_index sch st, 0) +
            sch.learning_rate *
              (calculate_reward correct latency_sec st.difficulty load_band +
                sch.discount_factor *
                  npMax4 (fun a => sch.q_table
                    (get_state_index sch (next_state_of sch st correct latency_sec load_band), a)) -
                sch.q_table (get_state_index sch st, 0))
        else sch.q_table k := by
  rw [record_result_known sch item_id correct latency_sec difficulty load_band st h]

/-- Witness for C6 at a concrete scheduler, item and call. -/
theorem C6_q_update_once_witness :
    schKnown.item_states 1 = some ⟨2, 1, 1, 2⟩ ∧
    (record_result schKnown 1 true 1 2 "low").q_table =
      fun k =>
        if k = (get_state_index schKnown ⟨2, 1, 1, 2⟩, 0) then
          schKnown.q_table (get_state_index schKnown ⟨2, 1, 1, 2⟩, 0) +
            schKnown.learning_rate *
              (calculate_reward true 1 (⟨2, 1, 1, 2⟩ : ItemState).difficulty "low" +
                schKnown.discount_factor *
                  npMax4 (fun a => schKnown.q_table
                    (get_state_index schKnown (next_state_of schKnown ⟨2, 1, 1, 2⟩ true 1 "low"), a)) -
                schKnown.q_table (get_state_index schKnown ⟨2, 1, 1, 2⟩, 0))
        else schKnown.q_table k :=
  ⟨rfl, C6_q_update_once schKnown 1 true 1 2 "low" ⟨2, 1, 1, 2⟩ rfl⟩

/-- C9: record_result on an item that was never scheduled is a complete
no-op: the whole scheduler (Q-table, item states and session logs) is
returned unchanged. -/
theorem C9_unknown_item_noop (sch : QLearningScheduler) (item_id : ℤ)
    (correct : Bool) (latency_sec : ℚ) (difficulty : ℤ) (load_band : String)
    (h : sch.item_states item_id = none) :
    record_result sch item_id correct latency_sec difficulty load_band = sch := by
  unfold record_result
  rw [h]

/-- Witness for C9 at a concrete scheduler and unknown item. -/
theorem C9_unknown_item_noop_witness :
    schDefault.item_states 5 = none ∧
    record_result schDefault 5 true 1 1 "low" = schDefault :=
  ⟨rfl, C9_unknown_item_noop schDefault 5 true 1 1 "low" rfl⟩

/-- C10: For an item already present in the state map, record_result is
independent of its difficulty argument: the stored difficulty shadows the
argument, so two calls differing only in difficulty return identical
schedulers (same reward, next state, Q-table update and session record). -/
theorem C10_difficulty_argument_ignored (sch : QLearningScheduler) (item_id : ℤ)
    (correct : Bool) (latency_sec : ℚ) (difficulty1 difficulty2 : ℤ)
    (load_band : String) (st : ItemState) (h : sch.item_states item_id = some st) :
    record_result sch item_id correct latency_sec difficulty1 load_band =
      record_result sch item_id correct latency_sec difficulty2 load_band := by
  unfold record_result
  rw [h]

/-- Witness for C10 at a concrete scheduler and two difficulty arguments. -/
theorem C10_difficulty_argument_ignored_witness :
    schKnown.item_states 1 = some ⟨2, 1, 1, 2⟩ ∧
    record_result schKnown 1 false 3 1 "high" =
      record_result schKnown 1 false 3 7 "high" :=
  ⟨rfl, C10_difficulty_argument_ignored schKnown 1 false 3 1 7 "high" ⟨2, 1, 1, 2⟩ rfl⟩

/-- C1 (code evaluation at the failing input): a fresh item with difficulty 1
and load band "high", with an exploration draw (u = 0 below epsilon) that
picks random index 3, gets the longest interval 240 seconds — the safety
clamp does not fire because the state's integer load index 3 is compared
with the string "high".  The chosen action index is the last one, 3. -/
theorem C1_high_load_returns_longest_interval :
    choose_action schDefault ⟨1, 0, 1, get_load_band_index "high"⟩ false ⟨0, 3⟩ = 3 ∧
    (get_next_interval schDefault 7 1 "high" false ⟨0, 3⟩).1 = some 240 := by
  constructor
  · simp [choose_action, schDefault, QLearningScheduler.init, get_state_index,
      get_load_band_index, pyEq, pyIn, npArgmax4]
    decide
  · simp [get_next_interval, schDefault, QLearningScheduler.init, choose_action,
      get_state_index, get_load_band_index, pyEq, pyIn, npArgmax4, pyListGet, qlActions]
    decide

/-- C2 counterexample: with a fitted model, a feature map missing all five
features does not fail — predict_load_band succeeds and returns a band, so a
missing feature does not raise a validation error. -/
theorem C2_missing_features_no_error :
    predict_load_band (some fun _ => 0) (fun _ => none) = Except.ok "low" := by
  simp [predict_load_band, rawPredictedLoad, featureVector, Fin.sum_univ_six]
  norm_num

/-- C2 amended: predict_load_band fails only when the model is unfit; a
missing feature is never an error — each missing feature is imputed with the
default value 0 (the call behaves exactly as if the feature were present
with value 0), and the call always returns a band. -/
theorem C2_missing_features_imputed_zero :
    ∀ f : String → Option ℚ,
      predict_load_band none f =
        Except.error "Model must be trained before making predictions" ∧
      ∀ c : Fin 6 → ℚ,
        (∃ b, predict_load_band (some c) f = Except.ok b) ∧
        predict_load_band (some c) f =
          predict_load_band (some c) (fun k => some ((f k).getD 0)) := by
  intro f
  exact ⟨rfl, fun c => ⟨⟨_, rfl⟩, rfl⟩⟩

/-- C4 counterexample: the band map of whoami_general (band_from_score), one
of the two band predictions in the source, returns "moderate", not "low", on
the raw score exactly 1.5. -/
theorem C4_band_from_score_boundary :
    band_from_score (3/2) ≠ "low" ∧ band_from_score (3/2) = "moderate" := by
  constructor <;> simp [band_from_score]

/-- C4 amended: cognitive_backend's predict_load_band maps the raw
(unclipped) score with the inclusive thresholds 1.5 / 2.5, so a raw score of
exactly 1.5 gives "low" there, and clipping to [0,5] would not change any
band; but whoami_general's band_from_score uses strict thresholds 1.5 / 3.0
and returns "moderate" at exactly 1.5. -/
theorem C4_band_thresholds :
    (∀ (c : Fin 6 → ℚ) (f : String → Option ℚ),
      predict_load_band (some c) f =
        Except.ok (specBandInclusive (rawPredictedLoad c f))) ∧
    (∀ y : ℚ, specBandInclusive (npClip y 0 5) = specBandInclusive y) ∧
    specBandInclusive (3/2) = "low" ∧
    band_from_score (3/2) = "moderate" := by
  refine ⟨fun c f => rfl, fun y => ?_, by simp [specBandInclusive], by simp [band_from_score]⟩
  unfold specBandInclusive npClip
  rcases le_or_lt y (3/2) with h | h
  · rw [if_pos h, if_pos (max_le (by norm_num) ((min_le_left y 5).trans h))]
  · have hmin : (3/2 : ℚ) < min y 5 := lt_min h (by norm_num)
    have hclip : ¬ max (0 : ℚ) (min y 5) ≤ 3/2 :=
      not_le.mpr (hmin.trans_le (le_max_right 0 (min y 5)))
    rw [if_neg hclip, if_neg (not_le.mpr h)]
    have hmax : max (0 : ℚ) (min y 5) = min y 5 :=
      max_eq_right (by linarith [hmin])
    rcases le_or_lt y (5/2) with h2 | h2
    · rw [if_pos (by rw [hmax]; exact (min_le_left y 5).trans h2), if_pos h2]
    · have hmin2 : (5/2 : ℚ) < min y 5 := lt_min h2 (by norm_num)
      rw [if_neg (by rw [hmax]; exact not_le.mpr hmin2), if_neg (not_le.mpr h2)]

/-- np.argmax over a 4-entry row returns an index between 0 and 3. -/
lemma npArgmax4_bounds (f : ℤ → ℚ) : 0 ≤ npArgmax4 f ∧ npArgmax4 f ≤ 3 := by
  unfold npArgmax4
  simp only [List.foldl]
  split_ifs <;> simp

/-- choose_action always produces an action index between 0 and 3: the
epsilon-greedy pick is in range and the safety clamps keep it there. -/
lemma choose_action_bounds (sch : QLearningScheduler) (s : ItemState)
    (force_exploit : Bool) (dr : Draw) :
    0 ≤ choose_action sch s force_exploit dr ∧
    choose_action sch s force_exploit dr ≤ 3 := by
  unfold choose_action
  obtain ⟨h0, h3⟩ := npArgmax4_bounds (fun a => sch.q_table (get_state_index sch s, a))
  have hr0 : (0 : ℤ) ≤ (dr.r : ℤ) := Int.natCast_nonneg _
  have hr3 : (dr.r : ℤ) ≤ 3 := by
    have := dr.r.isLt
    omega
  dsimp only
  split_ifs <;> omega

/-- Indexing the fixed action list with an index between 0 and 3 succeeds and
yields one of the four intervals. -/
lemma pyListGet_qlActions (a : ℤ) (h0 : 0 ≤ a) (h3 : a ≤ 3) :
    ∃ v, pyListGet qlActions a = some v ∧ v ∈ qlActions := by
  interval_cases a
  · exact ⟨30, by decide⟩
  · exact ⟨60, by decide⟩
  · exact ⟨120, by decide⟩
  · exact ⟨240, by decide⟩

/-- C7: For every scheduler state, item, difficulty in {1,2,3}, load-band
label and random draw, get_next_interval succeeds (the action index stays in
the bounds of the action list after the safety clamps) and returns an
element of the fixed action set {30, 60, 120, 240}. -/
theorem C7_interval_in_action_set (sch : QLearningScheduler) (item_id : ℤ)
    (difficulty : ℤ) (load_band : String) (force_exploit : Bool) (dr : Draw)
    (hd : difficulty = 1 ∨ difficulty = 2 ∨ difficulty = 3) :
    ∃ v, (get_next_interval sch item_id difficulty load_band force_exploit dr).1 = some v ∧
      v ∈ qlActions := by
  cases hs : sch.item_states item_id with
  | none =>
    simp only [get_next_interval, hs]
    obtain ⟨h0, h3⟩ := choose_action_bounds
      { sch with
        item_states := fun i => if i = item_id then
          some ⟨difficulty, 0, 1, get_load_band_index load_band⟩ else sch.item_states i
        item_sessions := fun i => if i = item_id then [] else sch.item_sessions i }
      ⟨difficulty, 0, 1, get_load_band_index load_band⟩ force_exploit dr
    exact pyListGet_qlActions _ h0 h3
  | some st =>
    simp only [get_next_interval, hs]
    obtain ⟨h0, h3⟩ := choose_action_bounds sch st force_exploit dr
    exact pyListGet_qlActions _ h0 h3

/-- Witness for C7 at a concrete scheduler and call. -/
theorem C7_interval_in_action_set_witness :
    ((2 : ℤ) = 1 ∨ (2 : ℤ) = 2 ∨ (2 : ℤ) = 3) ∧
    ∃ v, (get_next_interval schDefault 9 2 "moderate" false ⟨1, 0⟩).1 = some v ∧
      v ∈ qlActions :=
  ⟨Or.inr (Or.inl rfl),
   C7_interval_in_action_set schDefault 9 2 "moderate" false ⟨1, 0⟩ (Or.inr (Or.inl rfl))⟩

/-- Lower bound of the Q-table invariant: the least reward over 1 - γ. -/
def qLo (γ : ℚ) : ℚ := -(4/5) * (1 - γ)⁻¹

/-- Upper bound of the Q-table invariant: the greatest reward over 1 - γ. -/
def qHi (γ : ℚ) : ℚ := (19/10) * (1 - γ)⁻¹

/-- calculate_reward always lies in the interval [-0.8, 1.9]. -/
lemma calculate_reward_bounds (correct : Bool) (latency_sec : ℚ)
    (difficulty : ℤ) (load_band : String) :
    -(4/5) ≤ calculate_reward correct latency_sec difficulty load_band ∧
    calculate_reward correct latency_sec difficulty load_band ≤ 19/10 := by
  unfold calculate_reward
  split_ifs <;> norm_num

lemma npMax4_le {f : ℤ → ℚ} {hi : ℚ} (h : ∀ a, f a ≤ hi) : npMax4 f ≤ hi := by
  unfold npMax4
  exact max_le (max_le (max_le (h 0) (h 1)) (h 2)) (h 3)

lemma le_npMax4 {f : ℤ → ℚ} {lo : ℚ} (h : ∀ a, lo ≤ f a) : lo ≤ npMax4 f := by
  unfold npMax4
  exact (h 0).trans (le_max_of_le_left (le_max_of_le_left (le_max_left _ _)))

/-- All-entries boundedness of a Q-table function. -/
def QBounded (γ : ℚ) (q : ((ℤ × ℤ × ℤ × ℤ) × ℤ) → ℚ) : Prop :=
  ∀ k, qLo γ ≤ q k ∧ q k ≤ qHi γ

lemma qHi_fixed {γ : ℚ} (h : γ < 1) : qHi γ = 19/10 + γ * qHi γ := by
  unfold qHi
  have hne : 1 - γ ≠ 0 := by linarith
  field_simp
  ring

lemma qLo_fixed {γ : ℚ} (h : γ < 1) : qLo γ = -(4/5) + γ * qLo γ := by
  unfold qLo
  have hne : 1 - γ ≠ 0 := by linarith
  field_simp
  ring

lemma qLo_nonpos {γ : ℚ} (h1 : γ < 1) : qLo γ ≤ 0 := by
  unfold qLo
  have : (0 : ℚ) < (1 - γ)⁻¹ := inv_pos.mpr (by linarith)
  nlinarith

lemma qHi_nonneg {γ : ℚ} (h1 : γ < 1) : 0 ≤ qHi γ := by
  unfold qHi
  have : (0 : ℚ) < (1 - γ)⁻¹ := inv_pos.mpr (by linarith)
  nlinarith

/-- The single Q-learning update keeps the updated entry inside
[qLo γ, qHi γ] when the reward is in [-0.8, 1.9] and all current entries are
inside the interval. -/
lemma update_step_bounded {α γ cur m r : ℚ}
    (hα0 : 0 < α) (hα1 : α ≤ 1) (hγ0 : 0 < γ) (hγ1 : γ < 1)
    (hcur : qLo γ ≤ cur ∧ cur ≤ qHi γ) (hm : qLo γ ≤ m ∧ m ≤ qHi γ)
    (hr : -(4/5) ≤ r ∧ r ≤ 19/10) :
    qLo γ ≤ cur + α * (r + γ * m - cur) ∧
    cur + α * (r + γ * m - cur) ≤ qHi γ := by
  have hz_hi : r + γ * m ≤ qHi γ := by
    have h1 : γ * m ≤ γ * qHi γ := mul_le_mul_of_nonneg_left hm.2 hγ0.le
    have h2 := qHi_fixed hγ1
    linarith [hr.2]
  have hz_lo : qLo γ ≤ r + γ * m := by
    have h1 : γ * qLo γ ≤ γ * m := mul_le_mul_of_nonneg_left hm.1 hγ0.le
    have h2 := qLo_fixed hγ1
    linarith [hr.1]
  constructor
  · nlinarith [mul_nonneg (sub_nonneg.mpr hα1) (sub_nonneg.mpr hcur.1),
      mul_nonneg hα0.le (sub_nonneg.mpr hz_lo)]
  · nlinarith [mul_nonneg (sub_nonneg.mpr hα1) (sub_nonneg.mpr hcur.2),
      mul_nonneg hα0.le (sub_nonneg.mpr hz_hi)]

/-- update_q_value preserves the Q-table bounds for rewards in the reward
range. -/
lemma update_q_value_bounded (sch : QLearningScheduler) (s : ItemState)
    (a : ℤ) (r : ℚ) (ns : ItemState)
    (hα0 : 0 < sch.learning_rate) (hα1 : sch.learning_rate ≤ 1)
    (hγ0 : 0 < sch.discount_factor) (hγ1 : sch.discount_factor < 1)
    (hr : -(4/5) ≤ r ∧ r ≤ 19/10)
    (hq : QBounded sch.discount_factor sch.q_table) :
    QBounded sch.discount_factor (update_q_value sch s a r ns).q_table := by
  intro k
  unfold update_q_value
  dsimp only
  split_ifs with hk
  · exact update_step_bounded hα0 hα1 hγ0 hγ1 (hq _)
      ⟨le_npMax4 fun a2 => (hq _).1, npMax4_le fun a2 => (hq _).2⟩ hr
  · exact hq k

/-- get_next_interval never touches the Q-table. -/
lemma get_next_interval_q_table (sch : QLearningScheduler) (item_id difficulty : ℤ)
    (load_band : String) (force_exploit : Bool) (dr : Draw) :
    (get_next_interval sch item_id difficulty load_band force_exploit dr).2.q_table =
      sch.q_table := by
  cases hs : sch.item_states item_id <;> simp [get_next_interval, hs]

/-- Applying any operation preserves the hyperparameters. -/
lemma apply_preserves_params (sch : QLearningScheduler) (op : SchedOp) :
    (SchedOp.apply sch op).learning_rate = sch.learning_rate ∧
    (SchedOp.apply sch op).discount_factor = sch.discount_factor := by
  cases op with
  | next item_id difficulty load_band force_exploit dr =>
    cases hs : sch.item_states item_id <;>
      simp [SchedOp.apply, get_next_interval, hs]
  | record item_id correct latency_sec difficulty load_band =>
    cases hs : sch.item_states item_id with
    | none => simp [SchedOp.apply, record_result, hs]
    | some st =>
      simp [SchedOp.apply, record_result, hs, update_q_value]

/-- Applying any operation preserves boundedness of the Q-table. -/
lemma apply_preserves_bounded (sch : QLearningScheduler) (op : SchedOp)
    (hα0 : 0 < sch.learning_rate) (hα1 : sch.learning_rate ≤ 1)
    (hγ0 : 0 < sch.discount_factor) (hγ1 : sch.discount_factor < 1)
    (hq : QBounded sch.discount_factor sch.q_table) :
    QBounded sch.discount_factor (SchedOp.apply sch op).q_table := by
  cases op with
  | next item_id difficulty load_band force_exploit dr =>
    rw [SchedOp.apply, get_next_interval_q_table]
    exact hq
  | record item_id correct latency_sec difficulty load_band =>
    rw [SchedOp.apply]
    cases hs : sch.item_states item_id with
    | none =>
      unfold record_result
      rw [hs]
      exact hq
    | some st =>
      rw [record_result_known sch item_id correct latency_sec difficulty load_band st hs]
      have := update_q_value_bounded sch st 0
        (calculate_reward correct latency_sec st.difficulty load_band)
        (next_state_of sch st correct latency_sec load_band)
        hα0 hα1 hγ0 hγ1
        (calculate_reward_bounds correct latency_sec st.difficulty load_band) hq
      intro k
      exact this k

/-- Running any finite operation sequence preserves boundedness. -/
lemma runSchedOps_bounded (ops : List SchedOp) :
    ∀ sch : QLearningScheduler, 0 < sch.learning_rate → sch.learning_rate ≤ 1 →
      0 < sch.discount_factor → sch.discount_factor < 1 →
      QBounded sch.discount_factor sch.q_table →
      QBounded sch.discount_factor (runSchedOps sch ops).q_table := by
  induction ops with
  | nil => intro sch _ _ _ _ hq; exact hq
  | cons op ops ih =>
    intro sch hα0 hα1 hγ0 hγ1 hq
    have hstep := apply_preserves_bounded sch op hα0 hα1 hγ0 hγ1 hq
    obtain ⟨hαeq, hγeq⟩ := apply_preserves_params sch op
    have := ih (SchedOp.apply sch op)
      (by rw [hαeq]; exact hα0) (by rw [hαeq]; exact hα1)
      (by rw [hγeq]; exact hγ0) (by rw [hγeq]; exact hγ1)
      (by rw [hγeq]; exact hstep)
    rw [hγeq] at this
    exact this

/-- C8: the Q-table starts all zeros, every reward from calculate_reward lies
in [-0.8, 1.9], and with learning rate in (0,1] and discount factor in (0,1)
every Q-table entry stays in the bounded interval
[-0.8/(1-γ), 1.9/(1-γ)] — in particular finite — after any finite sequence
of get_next_interval and record_result operations. -/
theorem C8_q_table_bounded (α γ ε : ℚ) (ms ml mb : ℤ) (ops : List SchedOp)
    (hα0 : 0 < α) (hα1 : α ≤ 1) (hγ0 : 0 < γ) (hγ1 : γ < 1) :
    (∀ k, (QLearningScheduler.init α γ ε ms ml mb).q_table k = 0) ∧
    (∀ (correct : Bool) (latency_sec : ℚ) (difficulty : ℤ) (load_band : String),
      -(4/5) ≤ calculate_reward correct latency_sec difficulty load_band ∧
      calculate_reward correct latency_sec difficulty load_band ≤ 19/10) ∧
    (∀ k, qLo γ ≤ (runSchedOps (QLearningScheduler.init α γ ε ms ml mb) ops).q_table k ∧
      (runSchedOps (QLearningScheduler.init α γ ε ms ml mb) ops).q_table k ≤ qHi γ) := by
  refine ⟨fun k => rfl, calculate_reward_bounds, ?_⟩
  have hinit : QBounded γ (QLearningScheduler.init α γ ε ms ml mb).q_table := by
    intro k
    exact ⟨qLo_nonpos hγ1, qHi_nonneg hγ1⟩
  exact runSchedOps_bounded ops (QLearningScheduler.init α γ ε ms ml mb)
    hα0 hα1 hγ0 hγ1 hinit

/-- Witness for C8 at the reference hyperparameters and a concrete two-step
operation sequence. -/
theorem C8_q_table_bounded_witness :
    ((0 : ℚ) < 1/10 ∧ (1/10 : ℚ) ≤ 1 ∧ (0 : ℚ) < 9/10 ∧ (9/10 : ℚ) < 1) ∧
    (∀ k, (QLearningScheduler.init (1/10) (9/10) (1/10) 3 2 2).q_table k = 0) ∧
    (∀ (correct : Bool) (latency_sec : ℚ) (difficulty : ℤ) (load_band : String),
      -(4/5) ≤ calculate_reward correct latency_sec difficulty load_band ∧
      calculate_reward correct latency_sec difficulty load_band ≤ 19/10) ∧
    (∀ k, qLo (9/10) ≤ (runSchedOps (QLearningScheduler.init (1/10) (9/10) (1/10) 3 2 2)
        [SchedOp.next 1 2 "low" false ⟨1, 0⟩,
         SchedOp.record 1 true 1 2 "low"]).q_table k ∧
      (runSchedOps (QLearningScheduler.init (1/10) (9/10) (1/10) 3 2 2)
        [SchedOp.next 1 2 "low" false ⟨1, 0⟩,
         SchedOp.record 1 true 1 2 "low"]).q_table k ≤ qHi (9/10)) :=
  ⟨⟨by norm_num, by norm_num, by norm_num, by norm_num⟩,
   C8_q_table_bounded (1/10) (9/10) (1/10) 3 2 2
     [SchedOp.next 1 2 "low" false ⟨1, 0⟩, SchedOp.record 1 true 1 2 "low"]
     (by norm_num) (by norm_num) (by norm_num) (by norm_num)⟩

/-- npLinalgInv of an everywhere-nonzero diagonal matrix is the diagonal of
the entrywise inverses. -/
lemma npLinalgInv_diagonal {n : ℕ} (d : Fin n → ℚ) (h : ∀ i, d i ≠ 0) :
    npLinalgInv (Matrix.diagonal d) = some (Matrix.diagonal fun i => (d i)⁻¹) := by
  have hone : Matrix.diagonal d * Matrix.diagonal (fun i => (d i)⁻¹) = 1 := by
    rw [Matrix.diagonal_mul_diagonal]
    have hfun : (fun i => d i * (d i)⁻¹) = fun _ => (1 : ℚ) :=
      funext fun i => mul_inv_cancel₀ (h i)
    rw [hfun, Matrix.diagonal_one]
  have hne : (Matrix.diagonal d).det ≠ 0 := by
    rw [Matrix.det_diagonal]
    exact Finset.prod_ne_zero_iff.mpr fun i _ => h i
  unfold npLinalgInv
  rw [if_neg hne]
  have hinv : (Matrix.diagonal d).det⁻¹ • (Matrix.diagonal d).adjugate =
      (Matrix.diagonal d)⁻¹ := by
    rw [Matrix.inv_def, Ring.inverse_eq_inv]
  rw [hinv, Matrix.inv_eq_right_inv hone]

/-- A one-sample dataset whose five features are all zero. -/
def Fzero1 : Matrix (Fin 1) (Fin 5) ℚ := Matrix.of fun _ _ => 0

/-- Target vector 1 for the one-sample dataset. -/
def yone1 : Fin 1 → ℚ := fun _ => 1

lemma designMatrix_zero_row (i : Fin 6) :
    designMatrix Fzero1 0 i = if i = 0 then 1 else 0 := by
  refine Fin.cases ?_ ?_ i
  · simp [designMatrix]
  · intro k
    simp [designMatrix, Fzero1, Fin.succ_ne_zero]

/-- On the all-zero one-sample dataset, the matrix inverted by train
(full-identity regularizer λ np.eye) is diagonal with entries
1 + λ and λ. -/
lemma train_matrix_eq :
    (designMatrix Fzero1).transpose * designMatrix Fzero1 +
      (1/100 : ℚ) • (1 : Matrix (Fin 6) (Fin 6) ℚ) =
    Matrix.diagonal (fun i => if i = 0 then 101/100 else 1/100) := by
  ext i j
  simp only [Matrix.add_apply, Matrix.mul_apply, Matrix.smul_apply, Matrix.one_apply,
    Matrix.transpose_apply, Matrix.diagonal_apply, Fin.sum_univ_one,
    designMatrix_zero_row, smul_eq_mul]
  by_cases hij : i = j
  · subst hij
    by_cases hi : i = 0 <;> norm_num [hi]
  · by_cases hi : i = 0 <;> by_cases hj : j = 0 <;>
      simp [hi, hj, hij] <;> simp_all

/-- On the all-zero one-sample dataset, the matrix inverted by fit
(zero-corner regularizer) is diagonal with entries 1 and λ: the bias entry
carries no regularization. -/
lemma fit_matrix_eq :
    (designMatrix Fzero1).transpose * designMatrix Fzero1 +
      (1/100 : ℚ) • zeroCornerEye =
    Matrix.diagonal (fun i => if i = 0 then 1 else 1/100) := by
  ext i j
  simp only [Matrix.add_apply, Matrix.mul_apply, Matrix.smul_apply, zeroCornerEye,
    Matrix.transpose_apply, Matrix.diagonal_apply, Fin.sum_univ_one, Matrix.of_apply,
    designMatrix_zero_row, smul_eq_mul]
  by_cases hij : i = j
  · subst hij
    by_cases hi : i = 0 <;> norm_num [hi]
  · by_cases hi : i = 0 <;> by_cases hj : j = 0 <;>
      simp [hi, hj, hij] <;> simp_all

lemma xty_eq : (designMatrix Fzero1).transpose.mulVec yone1 =
    fun i => if i = 0 then 1 else 0 := by
  funext i
  simp [Matrix.mulVec, Matrix.dotProduct, Fin.sum_univ_one, Matrix.transpose_apply,
    designMatrix_zero_row, yone1]

/-- Evaluation of the train solve on the concrete dataset: the intercept is
shrunk to 100/101 by the regularized bias entry. -/
lemma trainCoefficients_eval :
    trainCoefficients Fzero1 yone1 (1/100) =
      some fun i => if i = 0 then (100/101 : ℚ) else 0 := by
  unfold trainCoefficients
  dsimp only
  rw [train_matrix_eq, npLinalgInv_diagonal _ (fun i => by by_cases hi : i = 0 <;> simp [hi]),
    Option.map_some', xty_eq]
  congr 1
  funext i
  rw [Matrix.mulVec_diagonal]
  by_cases hi : i = 0 <;> norm_num [hi]

/-- Evaluation of the fit solve on the concrete dataset: the intercept is the
exact least-squares value 1, unshrunk. -/
lemma fitCoefficients_eval :
    fitCoefficients Fzero1 yone1 (1/100) =
      some fun i => if i = 0 then (1 : ℚ) else 0 := by
  unfold fitCoefficients
  dsimp only
  rw [fit_matrix_eq, npLinalgInv_diagonal _ (fun i => by by_cases hi : i = 0 <;> simp [hi]),
    Option.map_some', xty_eq]
  congr 1
  funext i
  rw [Matrix.mulVec_diagonal]
  by_cases hi : i = 0 <;> simp [hi]

/-- C5 counterexample: on a concrete dataset the coefficients computed by
SpeechBiomarkerModel.train differ from the formula the claim states
(regularizer with zeroed (0,0) entry): train shrinks the intercept because
it regularizes the bias term too. -/
theorem C5_train_differs_from_spec_formula :
    trainCoefficients Fzero1 yone1 (1/100) ≠
      specRidgeCoefficients Fzero1 yone1 (1/100) := by
  intro h
  have hspec : specRidgeCoefficients Fzero1 yone1 (1/100) =
      some fun i => if i = 0 then (1 : ℚ) else 0 := fitCoefficients_eval
  rw [trainCoefficients_eval, hspec] at h
  have h2 := congrFun (Option.some.inj h) 0
  simp at h2
  norm_num at h2

/-- C5 amended: whoami_general's SpeechLoadModel.fit computes exactly the
claimed closed-form solve with the zero-corner regularizer (intercept
unregularized), while cognitive_backend's SpeechBiomarkerModel.train uses
the full identity λ·I, regularizing the intercept: on the concrete dataset
fit recovers intercept 1 but train returns 100/101. -/
theorem C5_fit_unregularized_train_regularized :
    (∀ (m : ℕ) (F : Matrix (Fin m) (Fin 5) ℚ) (y : Fin m → ℚ) (lam : ℚ),
      fitCoefficients F y lam = specRidgeCoefficients F y lam) ∧
    trainCoefficients Fzero1 yone1 (1/100) =
      (some fun i => if i = 0 then (100/101 : ℚ) else 0) ∧
    specRidgeCoefficients Fzero1 yone1 (1/100) =
      (some fun i => if i = 0 then (1 : ℚ) else 0) :=
  ⟨fun _ _ _ _ => rfl, trainCoefficients_eval, fitCoefficients_eval⟩
